import Mathlib

/-!
Verification development for the xmlrfc2md repository (files
`xmlrfc2md.py` and `xml2md.py`): an XML-RFC to kramdown-style Markdown
converter.  The Python sources are shallowly embedded below; text is
modelled as `List Char` (with `String` wrappers mirroring the source
signatures), XML elements as an inductive tree, fallible code (paths that
raise an uncaught Python exception) as `Option`-valued functions, and the
mutually recursive extractor family with an explicit fuel parameter (the
Python recursion is structurally terminating, so any fuel larger than the
tree size is enough; theorems either quantify over the fuel or use a
concrete sufficient value).
-/

set_option maxRecDepth 4000

/-- Whitespace in the sense of Python's `str` methods and the `\s` regex
class, restricted to the characters that can occur in this development
(ASCII whitespace, NEL, NBSP and the Unicode line/paragraph separators). -/
def pyIsSpace (c : Char) : Bool :=
  c = ' ' ∨ c = '\t' ∨ c = '\n' ∨ c = '\r' ∨ c = '\x0b' ∨ c = '\x0c' ∨
  c = '\x1c' ∨ c = '\x1d' ∨ c = '\x1e' ∨ c = '\x1f' ∨ c = '\x85' ∨
  c = '\xa0' ∨ c = '\u2028' ∨ c = '\u2029'

/-- Line-boundary characters of Python's `str.splitlines`. -/
def isLineBreak (c : Char) : Bool :=
  c = '\n' ∨ c = '\r' ∨ c = '\x0b' ∨ c = '\x0c' ∨ c = '\x1c' ∨ c = '\x1d' ∨
  c = '\x1e' ∨ c = '\x85' ∨ c = '\u2028' ∨ c = '\u2029'

/-- Python `str.splitlines`: split at line boundaries, treating `"\r\n"`
as a single boundary, and do not produce a final empty line for a trailing
boundary. -/
def pySplitlines : List Char → List (List Char)
  | [] => []
  | '\r' :: '\n' :: cs => [] :: pySplitlines cs
  | c :: cs =>
    if isLineBreak c then [] :: pySplitlines cs
    else
      match pySplitlines cs with
      | [] => [[c]]
      | l :: ls => (c :: l) :: ls

/-- Python `str.lstrip()` (strip leading whitespace). -/
def pyLstrip (l : List Char) : List Char := l.dropWhile pyIsSpace

/-- Python `str.strip()` (strip whitespace on both ends). -/
def pyStrip (l : List Char) : List Char :=
  ((l.dropWhile pyIsSpace).reverse.dropWhile pyIsSpace).reverse

/-- Per-line step of `collapse_spaces` (xmlrfc2md.py lines 30-34): strip
leading whitespace and, if anything was stripped, put back exactly one
space. -/
def collapseLine (ln : List Char) : List Char :=
  let lst := pyLstrip ln
  if lst ≠ ln then ' ' :: lst else lst

/-- `collapse_spaces` from xmlrfc2md.py (lines 27-38), over `List Char`:
process each line with `collapseLine`, then join with newlines, or with
single spaces when `span` is true. -/
def collapseSpacesL (t : List Char) (span : Bool) : List Char :=
  let out := (pySplitlines t).map collapseLine
  if !span then (out.intersperse ['\n']).flatten
  else (out.intersperse [' ']).flatten

/-- `collapse_spaces` at the `String` level, mirroring the source
signature `collapse_spaces(t, span=False)`. -/
def collapse_spaces (t : String) (span : Bool := false) : String :=
  String.mk (collapseSpacesL t.data span)

/-- `concat_with_space` from xmlrfc2md.py (lines 41-48): join two
fragments with a single space unless either is empty, the left ends with
an opening bracket, a period or a double quote, or the right starts with a
space or newline. -/
def concat_with_space (s t : String) : String :=
  if s = "" ∨ t = "" then s ++ t
  else if s.data.getLast? = some '(' ∨ s.data.getLast? = some '[' ∨
          s.data.getLast? = some '.' ∨ s.data.getLast? = some '"' ∨
          t.data.head? = some ' ' ∨ t.data.head? = some '\n' then s ++ t
  else s ++ " " ++ t

/-- Character-level expansion implementing `simple_escape` from
xmlrfc2md.py (lines 51-57).  The source performs five sequential
`str.replace` calls whose replacement texts never contain a character
replaced by a later call, so the composition equals this single
character map. -/
def simpleEscapeChar (c : Char) : List Char :=
  if c = '<' then "&lt;".data
  else if c = '>' then "&gt;".data
  else if c = '[' then ['\\', '[']
  else if c = ']' then ['\\', ']']
  else if c = '\t' then [' ']
  else [c]

/-- `simple_escape` from xmlrfc2md.py: escape angle brackets as entities,
backslash-escape square brackets, and turn tabs into spaces. -/
def simple_escape (t : String) : String :=
  String.mk (t.data.flatMap simpleEscapeChar)

/-- `escape_title` from xmlrfc2md.py (lines 60-62): tabs become spaces. -/
def escape_title (t : String) : String :=
  String.mk (t.data.map (fun c => if c = '\t' then ' ' else c))

/-- `escape_sourcecode` from xmlrfc2md.py (lines 118-120): tabs become
spaces. -/
def escape_sourcecode (t : String) : String :=
  String.mk (t.data.map (fun c => if c = '\t' then ' ' else c))

/-- An XML element in the sense of `xml.etree.ElementTree`: a tag, an
ordered attribute list, optional immediate text, optional tail text (text
following this element inside its parent), and an ordered child list. -/
inductive Elem where
  | mk (tag : String) (attrs : List (String × String)) (text : Option String)
       (tail : Option String) (children : List Elem)

/-- Tag of an element. -/
def Elem.tag : Elem → String
  | .mk t _ _ _ _ => t

/-- Attribute list of an element. -/
def Elem.attrs : Elem → List (String × String)
  | .mk _ a _ _ _ => a

/-- Immediate text of an element (`elem.text`). -/
def Elem.text : Elem → Option String
  | .mk _ _ t _ _ => t

/-- Tail text of an element (`elem.tail`). -/
def Elem.tail : Elem → Option String
  | .mk _ _ _ t _ => t

/-- Children of an element. -/
def Elem.children : Elem → List Elem
  | .mk _ _ _ _ c => c

/-- `elem.get(name)`: the first attribute with the given name, if any. -/
def Elem.get (e : Elem) (name : String) : Option String :=
  (e.attrs.find? (fun p => p.1 = name)).map (fun p => p.2)

/-- `elem.find(tag)` / `elem.find("./tag")`: first child with the tag. -/
def findChild (e : Elem) (t : String) : Option Elem :=
  e.children.find? (fun c => c.tag = t)

/-- `elem.findall(tag)`: all children with the tag, in order. -/
def findAllChildren (e : Elem) (t : String) : List Elem :=
  e.children.filter (fun c => c.tag = t)

/-- `elem.find("a/b")`: first grandchild reached through a child tagged
`a` and tagged `b`, in document order. -/
def findPath2 (e : Elem) (a b : String) : Option Elem :=
  ((findAllChildren e a).flatMap (fun x => findAllChildren x b)).head?

/-- `elem.findall("./a/b/c")`: all elements reached by the three-step
path, in document order. -/
def findAllPath3 (e : Elem) (a b c : String) : List Elem :=
  ((findAllChildren e a).flatMap (fun x => findAllChildren x b)).flatMap
    (fun x => findAllChildren x c)

/-- `e.find("./artset/artwork[@type='ascii-art']")` from `extract_figure`:
first `artwork` grandchild under any `artset` child whose `type`
attribute is `ascii-art`. -/
def findAsciiArt (e : Elem) : Option Elem :=
  (((findAllChildren e "artset").flatMap (fun x => findAllChildren x "artwork")).filter
    (fun a => a.get "type" = some "ascii-art")).head?

-- The `Lists` constants from xmlrfc2md.py (lines 111-115).
namespace Lists

/-- `Lists.NoType`. -/
def NoType : Nat := 0

/-- `Lists.Unordered`. -/
def Unordered : Nat := 1

/-- `Lists.Ordered`. -/
def Ordered : Nat := 2

/-- `Lists.Definition`. -/
def Definition : Nat := 3

end Lists

/-- `generate_ial` from xmlrfc2md.py (lines 123-134): render an
inline-attribute-list block from an ordered key/value mapping; the key
`id` renders as `#value`. -/
def generate_ial (pairs : List (String × String)) : String :=
  if pairs.length = 0 then ""
  else
    "\x7b:" ++
      (pairs.map (fun p =>
        if p.1 = "id" then " #" ++ p.2
        else " " ++ p.1 ++ "='" ++ p.2 ++ "'")).foldl (· ++ ·) ""
    ++ "\x7d"

/-- `section_title` from xmlrfc2md.py (lines 65-75).  The append to the
process-wide `internal_refs` registry is a write-only side channel and is
dropped.  Result `none` models the uncaught `AttributeError` raised when
the `name` child exists but has no text (`name.text.strip()`). -/
def section_title (elem : Elem) (level : Nat) : Option String :=
  let anchor : String :=
    match elem.get "anchor" with
    | some a => "\x7b#" ++ a ++ "\x7d"
    | none => ""
  match findChild elem "name" with
  | none => some ""
  | some nameEl =>
    match nameEl.text with
    | none => none
    | some txt =>
      some ("\n" ++ String.mk (List.replicate (level) '#') ++ " " ++
            String.mk (pyStrip txt.data) ++ " " ++ anchor ++ "\n")

/-- `extract_xref` from xmlrfc2md.py (lines 78-108).  Result `none`
models the uncaught `TypeError` raised when a `section` attribute is
present but `sectionFormat` is absent (the source then evaluates
`"unsupported xref section format: " + None`).  Log calls are dropped;
the returned text is unchanged by them. -/
def extract_xref (elem : Elem) : Option String :=
  let target? := elem.get "target"
  let sect? := elem.get "section"
  let sectionFormat? := elem.get "sectionFormat"
  let fmt? := elem.get "format"
  match target? with
  | none => some "badxref"
  | some target =>
    match elem.text with
    | some txt => some ("[" ++ simple_escape txt ++ "](#" ++ target ++ ")")
    | none =>
      match sect? with
      | none =>
        if fmt? = some "counter" then some ("\x7b\x7b<" ++ target ++ "\x7d\x7d")
        else some ("\x7b\x7b" ++ target ++ "\x7d\x7d")
      | some sect =>
        match sectionFormat? with
        | none => none
        | some sf =>
          if sf = "of" then
            some ("Section " ++ sect ++ " of \x7b\x7b" ++ target ++ "\x7d\x7d")
          else if sf = "comma" then
            some ("\x7b\x7b" ++ target ++ "\x7d\x7d, Section " ++ sect)
          else if sf = "parens" then
            some ("\x7b\x7b" ++ target ++ "\x7d\x7d (" ++ sect ++ ")")
          else if sf = "bare" then some sect
          else some "badxref"

/-- Python `s.startswith(p)` over `String`. -/
def strStartsWith (s p : String) : Bool := p.data.isPrefixOf s.data

/-- Python `s.removeprefix(p)` over `String`. -/
def strDropPrefix (s p : String) : String :=
  if strStartsWith s p then String.mk (s.data.drop p.data.length) else s

namespace Xml2md

/-- `extract_xref` from xml2md.py (lines 33-52), the earlier copy of the
tool: only targets starting with `RFC` get section treatment, and only
the `of` and `comma` section formats are supported.  Result `none` models
the uncaught `TypeError` when the target starts with `RFC` and
`sectionFormat` is absent (the source concatenates it into a message). -/
def extract_xref (elem : Elem) : Option String :=
  let target? := elem.get "target"
  let sect? := elem.get "section"
  let sectionFormat? := elem.get "sectionFormat"
  match target? with
  | none => some "badxref"
  | some target =>
    if strStartsWith target "RFC" then
      match sectionFormat? with
      | none => none
      | some sf =>
        if sf ≠ "of" ∧ sf ≠ "comma" then some "badxref"
        else
          match sect? with
          | none => some ("\x7b\x7b" ++ target ++ "\x7d\x7d")
          | some sect =>
            if sf = "of" then
              some ("Section " ++ sect ++ " of \x7b\x7b" ++ target ++ "\x7d\x7d")
            else
              some ("\x7b\x7b" ++ target ++ "\x7d\x7d, Section " ++ sect)
    else some ("\x7b\x7b" ++ target ++ "\x7d\x7d")

end Xml2md

/-- `extract_sourcecode` from xmlrfc2md.py (lines 137-155).  Result
`none` models the uncaught `TypeError` when the element has no text
(`escape_sourcecode(None)`).  The `throttle` call in the language-tag
branch is a diagnostic side channel modelled separately (see `throttle`);
it does not change the returned text. -/
def extract_sourcecode (e : Elem) : Option String :=
  let lang? := e.get "type"
  match e.text with
  | none => none
  | some txt =>
    let t := escape_sourcecode txt
    let ials : List (String × String) :=
      (if e.get "markers" = some "true" then [("sourcecode-markers", "true")] else []) ++
      (match e.get "name" with
       | some n => [("sourcecode-name", n)]
       | none => [])
    let ial := if ials.length > 0 then "\n" ++ generate_ial ials else ""
    match lang? with
    | none => some ("\n~~~\n" ++ t ++ "\n~~~" ++ ial)
    | some lang => some ("\n~~~ " ++ lang ++ "\n" ++ t ++ "\n~~~" ++ ial)

/-- `extract_figure` from xmlrfc2md.py (lines 158-186): select ASCII art
from an artset, else the artwork or sourcecode child; a figure with no
renderable content renders as the empty string (warning logged); a `name`
child without text crashes in `generate_ial` (`none`). -/
def extract_figure (e : Elem) : Option String :=
  let anchor? := e.get "anchor"
  let content? :=
    match findChild e "artset" with
    | some _ => findAsciiArt e
    | none =>
      match findChild e "artwork" with
      | some c => some c
      | none => findChild e "sourcecode"
  match content? with
  | none => some ""
  | some content =>
    match findChild e "name" with
    | none => extract_sourcecode content
    | some nameEl =>
      match nameEl.text with
      | none => none
      | some nm => do
        let sc ← extract_sourcecode content
        match anchor? with
        | some a => some (sc ++ "\n" ++ generate_ial [("id", a), ("title", nm)] ++ "\n")
        | none => some (sc ++ "\n" ++ generate_ial [("title", nm)] ++ "\n")

/-- `extract_eref` from xmlrfc2md.py (lines 336-346): append an external
reference to the accumulated output.  A missing `target` attribute
crashes in `concat_with_space`/`startswith` (`none`). -/
def extract_eref (output : String) (root : Elem) : Option String :=
  let brackets? := root.get "brackets"
  if brackets? = none ∨ brackets? = some "none" then
    match root.get "target" with
    | none => none
    | some tgt => some (concat_with_space output tgt)
  else
    match root.get "target" with
    | none => none
    | some tgt =>
      if strStartsWith tgt "http" then
        some (concat_with_space output ("<" ++ tgt ++ ">"))
      else
        some (concat_with_space output ("&lt;" ++ tgt ++ "&gt;"))

/-- Alignment dash of a table header cell (xmlrfc2md.py lines 205-213). -/
def alignDash (th : Elem) : String :=
  match th.get "align" with
  | none => "-"
  | some "left" => ":-"
  | some "center" => ":-:"
  | some _ => "-:"

mutual

/-- `extract_sections` from xmlrfc2md.py (lines 240-333): emit the
element's leading text, then fold `extract_child` over the children in
document order (`extract_loop`).  `fuel` only bounds the recursion depth;
the Python recursion is structural, so any fuel above the tree size is
enough. -/
def extract_sections (fuel : Nat) (root : Elem) (section_level list_level list_type : Nat)
    (span : Bool) : Option String :=
  match fuel with
  | 0 => none
  | fuel + 1 =>
    let init :=
      match root.text with
      | some t => collapse_spaces (simple_escape t) span
      | none => ""
    extract_loop fuel root.children init section_level list_level list_type span

termination_by structural fuel
/-- The `for elem in root` loop of `extract_sections`: dispatch each
child through `extract_child`, then append the child's collapsed, escaped
tail text. -/
def extract_loop (fuel : Nat) (elems : List Elem) (output : String)
    (section_level list_level list_type : Nat) (span : Bool) : Option String :=
  match fuel with
  | 0 => none
  | fuel + 1 =>
    match elems with
    | [] => some output
    | e :: rest => do
      let out1 ← extract_child fuel output e section_level list_level list_type span
      let out2 :=
        match e.tail with
        | some t => out1 ++ collapse_spaces (simple_escape t) span
        | none => out1
      extract_loop fuel rest out2 section_level list_level list_type span

termination_by structural fuel
/-- One arm of the `match elem.tag` dispatch in `extract_sections`
(xmlrfc2md.py lines 247-330), given the output accumulated so far. -/
def extract_child (fuel : Nat) (output : String) (elem : Elem)
    (section_level list_level list_type : Nat) (span : Bool) : Option String :=
  match fuel with
  | 0 => none
  | fuel + 1 =>
    match elem.tag with
    | "t" =>
      let pre :=
        match elem.get "anchor" with
        | some anchor =>
          if ¬ strStartsWith anchor "section-" then generate_ial [("id", anchor)] ++ "\n"
          else ""
        | none => ""
      do
        let s ← extract_sections fuel elem section_level list_level Lists.NoType false
        some (output ++ pre ++ s ++ "\n")
    | "blockquote" => do
        let s ← extract_sections fuel elem section_level list_level Lists.NoType false
        some (output ++ "\x7b:quote\x7d\n> " ++ String.mk (pyLstrip s.data) ++ "\n")
    | "aside" => do
        let s ← extract_sections fuel elem section_level list_level Lists.NoType false
        some (output ++ "\x7b:aside\x7d\n> " ++ String.mk (pyLstrip s.data) ++ "\n")
    | "eref" => extract_eref output elem
    | "li" =>
      let pre :=
        match elem.get "anchor" with
        | some anchor => generate_ial [("id", anchor)] ++ "\n"
        | none => ""
      do
        let s ← extract_list fuel elem section_level (list_level + 1) list_type
        some (output ++ pre ++ s ++ "\n")
    | "section" =>
      let ials :=
        match elem.get "numbered" with
        | some numbered => [("numbered", numbered)]
        | none => []
      let name? :=
        match findChild elem "name" with
        | some nameEl => nameEl.get "slugifiedName"
        | none => none
      if name? = none ∨ (name? ≠ some "name-authors-addresses" ∧
          name? ≠ some "name-authors-address" ∧ name? ≠ some "name-contributors") then do
        let title ← section_title elem (section_level + 1)
        let s ← extract_sections fuel elem (section_level + 1) 0 Lists.NoType false
        some (output ++ title ++ generate_ial ials ++ s ++ "\n")
      else
        some output
    | "ul" => do
        let s ← extract_sections fuel elem section_level list_level Lists.Unordered false
        some (output ++ s)
    | "ol" => do
        let s ← extract_sections fuel elem section_level list_level Lists.Ordered false
        some (output ++ s)
    | "dl" =>
      let ial :=
        match elem.get "indent" with
        | none => ""
        | some indent => "\n" ++ generate_ial [("indent", indent)]
      do
        let s ← extract_sections fuel elem section_level list_level Lists.Definition false
        some (output ++ ial ++ s)
    | "dt" => do
        let s ← extract_sections fuel elem section_level list_level Lists.Definition false
        match elem.get "anchor" with
        | some anchor => some (output ++ "\n" ++ generate_ial [("id", anchor)] ++ s)
        | none => some (output ++ "\n" ++ s)
    | "dd" => do
        let s ← extract_sections fuel elem section_level list_level Lists.NoType false
        some (output ++ ": " ++ String.mk (pyLstrip s.data))
    | "xref" => do
        let x ← extract_xref elem
        some (concat_with_space output x)
    | "displayreference" => some output
    | "bcp14" =>
      match elem.text with
      | none => none
      | some t => some (concat_with_space output t)
    | "tt" =>
      match elem.text with
      | none => none
      | some t => some (concat_with_space output ("`" ++ t ++ "`"))
    | "emph" | "em" =>
      match elem.text with
      | none => none
      | some t => some (concat_with_space output ("*" ++ t ++ "*"))
    | "strong" =>
      match elem.text with
      | none => none
      | some t => some (concat_with_space output ("**" ++ t ++ "**"))
    | "br" => some (output ++ "\n")
    | "sup" =>
      match elem.text with
      | none => none
      | some t => some (output ++ "<sup>" ++ t ++ "</sup>")
    | "contact" =>
      match elem.get "fullname" with
      | none => none
      | some n => some (output ++ " " ++ n)
    | "name" | "references" | "author" => some output
    | "sourcecode" | "artwork" => do
        let s ← extract_sourcecode elem
        some (output ++ s)
    | "figure" => do
        let s ← extract_figure elem
        some (output ++ s)
    | "table" => do
        let s ← extract_table fuel elem
        some (output ++ s)
    | _ => some output

termination_by structural fuel
/-- `extract_list` from xmlrfc2md.py (lines 349-373): the list-item
marker is chosen by `list_type`; an item whose first `t` child is absent
or childless renders as the marker plus the trimmed recursive extraction,
otherwise each top-level child is rendered in turn (`extract_list_loop`)
with continuation paragraphs indented four spaces. -/
def extract_list (fuel : Nat) (root : Elem) (section_level list_level list_type : Nat) :
    Option String :=
  match fuel with
  | 0 => none
  | fuel + 1 =>
    let pre :=
      if list_type = Lists.NoType then ""
      else if list_type = Lists.Unordered then "* "
      else "1. "
    let simple := do
      let s ← extract_sections fuel root section_level list_level Lists.NoType false
      some (pre ++ String.mk (pyLstrip s.data))
    match findChild root "t" with
    | none => simple
    | some ts =>
      if ts.children.length = 0 then simple
      else extract_list_loop fuel root.children "" true pre section_level list_level

termination_by structural fuel
/-- The `for elem in root` loop in the multi-paragraph branch of
`extract_list`. -/
def extract_list_loop (fuel : Nat) (elems : List Elem) (output : String) (isFirst : Bool)
    (pre : String) (section_level list_level : Nat) : Option String :=
  match fuel with
  | 0 => none
  | fuel + 1 =>
    match elems with
    | [] => some output
    | e :: rest => do
      let piece ←
        if e.tag = "t" then
          if isFirst then do
            let s ← extract_sections fuel e section_level list_level Lists.NoType false
            some (pre ++ String.mk (pyLstrip s.data))
          else do
            let s ← extract_sections fuel e section_level list_level Lists.NoType false
            some ("    " ++ s)
        else
          extract_sections fuel e section_level list_level Lists.NoType false
      let isFirst1 := if e.tag = "t" ∧ isFirst then false else isFirst
      extract_list_loop fuel rest (output ++ piece ++ "\n") isFirst1 pre
        section_level list_level

termination_by structural fuel
/-- `extract_table` from xmlrfc2md.py (lines 189-237): optional header
row (cells in span mode) and alignment row, then the body rows; a table
head without a `tr` renders the whole table as the empty string. -/
def extract_table (fuel : Nat) (root : Elem) : Option String :=
  match fuel with
  | 0 => none
  | fuel + 1 =>
    match findChild root "thead" with
    | none => extract_table_body fuel root "\n"
    | some thead =>
      match findChild thead "tr" with
      | none => some ""
      | some tr => do
        let ths := findAllChildren tr "th"
        let content ← extract_cells fuel ths "\n"
        let content := content ++ "\n"
        let content := content ++
          ths.foldl (fun acc th => acc ++ "|" ++ alignDash th ++ " ") ""
        let content := content ++ "\n"
        extract_table_body fuel root content

termination_by structural fuel
/-- The cell loops of `extract_table`: each cell renders as `"|"` plus
its content extracted in span mode at levels `(0, 0)`. -/
def extract_cells (fuel : Nat) (cells : List Elem) (content : String) : Option String :=
  match fuel with
  | 0 => none
  | fuel + 1 =>
    match cells with
    | [] => some content
    | c :: rest => do
      let s ← extract_sections fuel c 0 0 Lists.NoType true
      extract_cells fuel rest (content ++ "|" ++ s)

termination_by structural fuel
/-- The body and caption part of `extract_table` (xmlrfc2md.py lines
216-237): a missing `tbody` or an empty row list renders the whole table
as the empty string; an optional `name` child becomes a trailing
attribute block (crashing when it has no text, like the source). -/
def extract_table_body (fuel : Nat) (root : Elem) (content : String) : Option String :=
  match fuel with
  | 0 => none
  | fuel + 1 =>
    match findChild root "tbody" with
    | none => some ""
    | some tbody =>
      let trs := findAllChildren tbody "tr"
      if trs.length = 0 then some ""
      else do
        let content ← extract_rows fuel trs content
        match findChild root "name" with
        | none => some content
        | some nameEl =>
          match nameEl.text with
          | none => none
          | some nm =>
            let name := escape_title nm
            match root.get "anchor" with
            | some anchor =>
              some (content ++ generate_ial [("id", anchor), ("title", name)] ++ "\n")
            | none => some (content ++ generate_ial [("title", name)] ++ "\n")

termination_by structural fuel
/-- The body-row loop of `extract_table`: each row's `td` cells, then a
newline. -/
def extract_rows (fuel : Nat) (trs : List Elem) (content : String) : Option String :=
  match fuel with
  | 0 => none
  | fuel + 1 =>
    match trs with
    | [] => some content
    | tr :: rest => do
      let c ← extract_cells fuel (findAllChildren tr "td") content
      extract_rows fuel rest (c ++ "\n")

termination_by structural fuel
end

/-- `matches_rfc` from xmlrfc2md.py (lines 387-389):
`re.fullmatch("rfc[0-9]+", s, re.IGNORECASE)`. -/
def matches_rfc (s : String) : Bool :=
  match s.data with
  | r :: f :: c :: ds =>
    (r = 'r' ∨ r = 'R') ∧ (f = 'f' ∨ f = 'F') ∧ (c = 'c' ∨ c = 'C') ∧
    ds ≠ [] ∧ ds.all (fun d => d.isDigit)
  | _ => false

/-- A person record built by `convert_authors` (xmlrfc2md.py lines
482-524): an ordered mapping; a `none` value models a Python `None`
stored under the key (possible for `uri`, `email`, `phone`). -/
abbrev Person : Type := List (String × Option String)

/-- One postal field: `conditional_add(person, key, safe_text(find))`. -/
def postalField (postal : Elem) (key tag : String) : List (String × Option String) :=
  match findChild postal tag with
  | some el =>
    match el.text with
    | some t => [(key, some t)]
    | none => []
  | none => []

/-- The body of the `for a in front.findall(tag_name)` loop of
`convert_authors`: build one person record in insertion order. -/
def convert_author (a : Elem) : Person :=
  (match a.get "initials", a.get "surname" with
   | some i, some s => [("ins", some (i ++ " " ++ s))]
   | _, _ => []) ++
  (match a.get "fullname" with
   | some n => [("name", some n)]
   | none => []) ++
  (match findChild a "organization" with
   | some orgEl =>
     match orgEl.text with
     | some org => if org ≠ "" then [("organization", some org)] else []
     | none => []
   | none => []) ++
  (match findPath2 a "address" "uri" with
   | some el => [("uri", el.text)]
   | none => []) ++
  (match findPath2 a "address" "email" with
   | some el => [("email", el.text)]
   | none => []) ++
  (match findPath2 a "address" "phone" with
   | some el => [("phone", el.text)]
   | none => []) ++
  (match findPath2 a "address" "postal" with
   | some postal =>
     postalField postal "street" "street" ++ postalField postal "city" "city" ++
     postalField postal "region" "region" ++ postalField postal "code" "code" ++
     postalField postal "country" "country"
   | none => [])

/-- `convert_authors` from xmlrfc2md.py. -/
def convert_authors (front : Elem) (tag_name : String) : List Person :=
  (findAllChildren front tag_name).map convert_author

/-- Insert-or-overwrite into an ordered string mapping (Python dict
assignment). -/
def strDictInsert (d : List (String × String)) (k v : String) : List (String × String) :=
  match d with
  | [] => [(k, v)]
  | p :: rest => if p.1 = k then (k, v) :: rest else p :: strDictInsert rest k v

/-- `convert_series_info` from xmlrfc2md.py (lines 527-539): collect
`seriesInfo` name/value pairs (skipping malformed ones), `none` when the
result is empty. -/
def convert_series_info (front : Elem) : Option (List (String × String)) :=
  let si := (findAllChildren front "seriesInfo").foldl
    (fun acc el =>
      match el.get "name", el.get "value" with
      | some n, some v => strDictInsert acc n v
      | _, _ => acc) []
  if si.length > 0 then some si else none

/-- The `date` value of a full reference record: a Python string, `None`
(date element with falsy month and no year attribute), or `False` (no
date element). -/
inductive DateVal where
  | null
  | fls
  | str (s : String)
deriving DecidableEq

/-- A full bibliography record as built by `full_ref` (xmlrfc2md.py
lines 567-601), in the source's key order. -/
structure FullRef where
  target : Option String
  refcontent : Option String
  title : Option String
  date : DateVal
  author : List Person
  seriesinfo : Option (List (String × String))
deriving DecidableEq

/-- `full_ref` from xmlrfc2md.py: outer `none` models the uncaught
`TypeError` when a date has a truthy month but no year attribute
(`month + " " + None`); inner `none` is the source's `return None`
(reference with no front block or no title element). -/
def full_ref (ref : Elem) : Option (Option FullRef) :=
  let target? := ref.get "target"
  let refcontent? : Option String :=
    match findChild ref "refcontent" with
    | some rc => rc.text
    | none => none
  match findChild ref "front" with
  | none => some none
  | some front =>
    match findChild front "title" with
    | none => some none
    | some titleEl => do
      let date ←
        match findChild front "date" with
        | none => some DateVal.fls
        | some dateEl =>
          let month? := dateEl.get "month"
          let year? := dateEl.get "year"
          match month? with
          | some month =>
            if month ≠ "" then
              match year? with
              | none => none
              | some year => some (DateVal.str (month ++ " " ++ year))
            else
              match year? with
              | none => some DateVal.null
              | some y => some (DateVal.str y)
          | none =>
            match year? with
            | none => some DateVal.null
            | some y => some (DateVal.str y)
      some (some
        { target := target?
          refcontent := refcontent?
          title := titleEl.text
          date := date
          author := convert_authors front "author"
          seriesinfo := convert_series_info front })

/-- A bibliography entry: `null` for a recognized well-known series
anchor, a short DOI string, or a full record. -/
inductive RefEntry where
  | null
  | doi (s : String)
  | full (r : FullRef)
deriving DecidableEq

/-- Insert-or-overwrite into the reference mapping (Python dict
assignment `refs[anchor] = ...`). -/
def refsInsert (d : List (String × RefEntry)) (k : String) (v : RefEntry) :
    List (String × RefEntry) :=
  match d with
  | [] => [(k, v)]
  | p :: rest => if p.1 = k then (k, v) :: rest else p :: refsInsert rest k v

/-- The anchor test of `convert_references` (xmlrfc2md.py lines
619-620): RFC/I-D./BCP/STD anchors are well-known and map to `null`. -/
def wellKnownAnchor (anchor : String) : Bool :=
  matches_rfc anchor ∨ strStartsWith anchor "I-D." ∨ strStartsWith anchor "BCP" ∨
  strStartsWith anchor "STD"

/-- The body of the `for ref in ref_list` loop of `convert_references`
(xmlrfc2md.py lines 614-630), for one `<reference>` element: a missing
anchor skips the entry; a well-known anchor maps to `null`; otherwise a
DOI target maps to the short DOI string; otherwise the full record (or
nothing when `full_ref` rejects it). -/
def refStep (refs : List (String × RefEntry)) (ref : Elem) :
    Option (List (String × RefEntry)) :=
  match ref.get "anchor" with
  | none => some refs
  | some anchor =>
    if wellKnownAnchor anchor then
      some (refsInsert refs anchor RefEntry.null)
    else
      let doi? : Option String :=
        match ref.get "target" with
        | some target =>
          if strStartsWith target "https://doi.org/" then
            some ("DOI." ++ strDropPrefix target "https://doi.org/")
          else none
        | none => none
      match doi? with
      | some d => some (refsInsert refs anchor (RefEntry.doi d))
      | none => do
        let conv ← full_ref ref
        match conv with
        | some c => some (refsInsert refs anchor (RefEntry.full c))
        | none => some refs

/-- The body of the `for group in ref_groups` loop of
`convert_references` (xmlrfc2md.py lines 632-643). -/
def groupStep (refs : List (String × RefEntry)) (group : Elem) :
    List (String × RefEntry) :=
  match group.get "anchor" with
  | none => refs
  | some anchor =>
    if strStartsWith anchor "BCP" ∨ strStartsWith anchor "STD" then
      refsInsert refs anchor RefEntry.null
    else refs

/-- `elem.findall("./a/b")`. -/
def findAllPath2 (e : Elem) (a b : String) : List Elem :=
  (findAllChildren e a).flatMap (fun x => findAllChildren x b)

/-- `find_references` from xmlrfc2md.py (lines 542-554): the reference
blocks under back-matter (nested `references/references`, falling back to
flat `references`), selected by the slugified name of their heading. -/
def find_references (rfc : Elem) (ref_type : String) : Option Elem :=
  let bl := findAllPath3 rfc "back" "references" "references"
  let block_list := if bl.length = 0 then findAllPath2 rfc "back" "references" else bl
  block_list.find? (fun block =>
    match findChild block "name" with
    | none => false
    | some nameEl =>
      nameEl.get "slugifiedName" = some ("name-" ++ ref_type ++ "-references"))

/-- `find_contributors` from xmlrfc2md.py (lines 557-564). -/
def find_contributors (rfc : Elem) : Option Elem :=
  (findAllChildren rfc "back").flatMap (fun b => findAllChildren b "section")
    |>.find? (fun s =>
      match findChild s "name" with
      | none => false
      | some nameEl => nameEl.get "slugifiedName" = some "name-contributors")

/-- Fold of `refStep` over a reference list, propagating a crash. -/
def foldRefs (refs : List (String × RefEntry)) : List Elem →
    Option (List (String × RefEntry))
  | [] => some refs
  | r :: rest => do foldRefs (← refStep refs r) rest

/-- `convert_references` from xmlrfc2md.py (lines 604-645).  Outer
`none` models a crash propagated from `full_ref`; inner `none` is the
source's `return None` (no such reference block, or an empty one). -/
def convert_references (rfc : Elem) (ref_type : String) :
    Option (Option (List (String × RefEntry))) :=
  match find_references rfc ref_type with
  | none => some none
  | some refBlock =>
    let refList := findAllChildren refBlock "reference"
    if refList.length = 0 then some none
    else do
      let refs ← foldRefs [] refList
      let groups := findAllChildren refBlock "referencegroup"
      some (some (groups.foldl groupStep refs))

/-- Lookup in the throttle counter mapping. -/
def msgLookup (m : List (String × Nat)) (k : String) : Option Nat :=
  match m with
  | [] => none
  | p :: rest => if p.1 = k then some p.2 else msgLookup rest k

/-- Insert-or-overwrite into the throttle counter mapping. -/
def natDictInsert (m : List (String × Nat)) (k : String) (v : Nat) :
    List (String × Nat) :=
  match m with
  | [] => [(k, v)]
  | p :: rest => if p.1 = k then (k, v) :: rest else p :: natDictInsert rest k v

/-- `throttle` from xmlrfc2md.py (lines 18-24): create a zero counter
for an unseen message class, log the message exactly when the counter is
zero, then increment.  The returned boolean says whether the message was
printed. -/
def throttle (messages : List (String × Nat)) (msg_type msg : String) :
    List (String × Nat) × Bool :=
  let m1 :=
    if msgLookup messages msg_type = none then natDictInsert messages msg_type 0
    else messages
  let printed := msgLookup m1 msg_type = some 0
  (natDictInsert m1 msg_type ((msgLookup m1 msg_type).getD 0 + 1), printed)

/-- Run a sequence of `throttle` calls from a given counter state,
returning the final state and, per call, the message class and whether it
was printed. -/
def throttleRun (messages : List (String × Nat)) :
    List (String × String) → List (String × Nat) × List (String × Bool)
  | [] => (messages, [])
  | (ty, msg) :: rest =>
    let p := throttle messages ty msg
    let r := throttleRun p.1 rest
    (r.1, (ty, p.2) :: r.2)

/-- The `throttle` calls issued by a sequence of source-code blocks
(xmlrfc2md.py lines 151-155): exactly the blocks carrying a `type`
(language) attribute call `throttle("warn-lang", ...)`. -/
def sourcecodeThrottleEvents (es : List Elem) : List (String × String) :=
  es.filterMap (fun e =>
    if (e.get "type").isSome then
      some ("warn-lang", "language tag for source code may be incorrect")
    else none)

/-- Python `str.expandtabs()` with the default tab size 8, tracking the
output column (reset at line boundaries), as applied by
`TextWrapper._munge_whitespace` (the wrapper is constructed with
`replace_whitespace=False`, so only tab expansion happens). -/
def expandTabsAux (col : Nat) : List Char → List Char
  | [] => []
  | c :: cs =>
    if c = '\t' then
      List.replicate (8 - col % 8) ' ' ++ expandTabsAux (col + (8 - col % 8)) cs
    else if c = '\n' ∨ c = '\r' then c :: expandTabsAux 0 cs
    else c :: expandTabsAux (col + 1) cs

/-- `TextWrapper._split` with `break_on_hyphens=False`: split the text
into maximal runs of whitespace and of non-whitespace (the
`r"(\s+)"` word separator, empty pieces filtered out). -/
def splitChunks : List Char → List (List Char)
  | [] => []
  | c :: cs =>
    match splitChunks cs with
    | [] => [[c]]
    | [] :: rest => [c] :: [] :: rest
    | (d :: ds) :: rest =>
      if pyIsSpace c = pyIsSpace d then (c :: d :: ds) :: rest
      else [c] :: (d :: ds) :: rest

/-- The inner greedy loop of `TextWrapper._wrap_chunks`: move chunks onto
the current line while they fit within `width`; returns the line chunks,
the line length, and the remaining chunks. -/
def greedyFill (width curLen : Nat) :
    List (List Char) → List (List Char) × Nat × List (List Char)
  | [] => ([], curLen, [])
  | c :: rest =>
    if curLen + c.length ≤ width then
      let r := greedyFill width (curLen + c.length) rest
      (c :: r.1, r.2.1, r.2.2)
    else ([], curLen, c :: rest)

/-- The `drop_whitespace` trailing rule of `_wrap_chunks`: delete the
last chunk of the current line when it is entirely whitespace. -/
def dropLastIfWs (l : List (List Char)) : List (List Char) :=
  match l.getLast? with
  | some last => if last.all pyIsSpace then l.dropLast else l
  | none => l

/-- `TextWrapper._wrap_chunks` with `break_long_words=True`,
`drop_whitespace=True`, empty indents and no `max_lines`: repeatedly
build one output line (dropping a leading all-whitespace chunk once a
line has been emitted, greedy fill, breaking an over-long head chunk at
the remaining width, dropping a trailing whitespace chunk, emitting the
line if nonempty).  `fuel` bounds the iteration count; every iteration
with a nonempty chunk list consumes at least one character, so any fuel
above the total character count is enough. -/
def wrapChunksAux (width : Nat) : Nat → Bool → List (List Char) → List (List Char)
  | 0, _, _ => []
  | fuel + 1, hasLines, chunks =>
    match chunks with
    | [] => []
    | c :: rest =>
      let chunks1 := if hasLines && c.all pyIsSpace then rest else c :: rest
      let g := greedyFill width 0 chunks1
      let curLine := g.1
      let curLen := g.2.1
      let rem := g.2.2
      let step2 :=
        match rem with
        | d :: drest =>
          if d.length > width then
            let spaceLeft := if width < 1 then 1 else width - curLen
            (curLine ++ [d.take spaceLeft], (d.drop spaceLeft) :: drest)
          else (curLine, rem)
        | [] => (curLine, [])
      let curLine3 := dropLastIfWs step2.1
      let rest3 := wrapChunksAux width fuel (hasLines || !curLine3.isEmpty) step2.2
      if curLine3.isEmpty then rest3 else curLine3.flatten :: rest3

/-- Total character count of a chunk list (the sufficient wrap fuel). -/
def totalChunkLen (chunks : List (List Char)) : Nat := (chunks.map List.length).sum

/-- `wrapper.wrap(text)` for the module-level wrapper of xmlrfc2md.py
(line 11): `TextWrapper(width=120, replace_whitespace=False,
break_on_hyphens=False)`. -/
def pyWrap (text : List Char) : List (List Char) :=
  let chunks := splitChunks (expandTabsAux 0 text)
  wrapChunksAux 120 (totalChunkLen chunks + 1) false chunks

/-- `wrapper.fill(text)`: the wrapped lines joined with newlines. -/
def pyFill (text : List Char) : List Char :=
  ((pyWrap text).intersperse ['\n']).flatten

/-- `fill_text` from xmlrfc2md.py (lines 648-654): split into lines,
fill each with the module-level wrapper, join with newlines. -/
def fill_text (text : String) : String :=
  String.mk ((((pySplitlines text.data).map pyFill).intersperse ['\n']).flatten)

/-- `parse_rfc` from xmlrfc2md.py (lines 657-703), with the front-matter
serialization (`extract_preamble`, whose output is produced by the
external YAML serializer treated as a black box by the specification)
abstracted as the `preamble` parameter.  Result `none` models a
terminated run: either an explicit `sys.exit` (root tag not `rfc`) or an
uncaught `AttributeError` — the source's `if front == ""` /
`if abstract == ""` / `if middle == ""` / `if back != ""` guards compare
an Element (or `None`) with a string, which is an identity comparison
and never equal, so the guards never fire and a missing abstract, middle
or back element makes `extract_sections(None, ...)` raise. -/
def parse_rfc (fuel : Nat) (preamble : String) (root : Elem) (fill : Bool) :
    Option String :=
  if root.tag ≠ "rfc" then none
  else
    let output := "---\n" ++ preamble ++ "\n"
    match findPath2 root "front" "abstract" with
    | none => none
    | some abstract => do
      let a ← extract_sections fuel abstract 0 0 Lists.NoType false
      let output := output ++ "--- abstract\n\n" ++ a ++ "\n\n"
      match findChild root "middle" with
      | none => none
      | some middle => do
        let extracted ← extract_sections fuel middle 0 0 Lists.NoType false
        let t := if fill then fill_text extracted else extracted
        let output := output ++ "\n--- middle\n\n" ++ t
        match findChild root "back" with
        | none => none
        | some back => do
          let extracted2 ← extract_sections fuel back 0 0 Lists.NoType false
          let t2 := if fill then fill_text extracted2 else extracted2
          some (output ++ "\n--- back\n\n" ++ t2)

/-- Concrete cross-reference of the round-trip property: target
`RFC1234`, section `3`, section format `of`, no inline text. -/
def xrefOfExample : Elem :=
  Elem.mk "xref" [("target", "RFC1234"), ("section", "3"), ("sectionFormat", "of")]
    none none []

/-- Heading element carrying the reserved contributors slug. -/
def contributorsName : Elem :=
  Elem.mk "name" [("slugifiedName", "name-contributors")] (some "Contributors") none []

/-- A contributors section that does have content (leading text and a
paragraph child). -/
def contributorsSection : Elem :=
  Elem.mk "section" [] (some "Secret") none
    [contributorsName, Elem.mk "t" [] (some "hidden text") none []]

/-- A `<reference>` with a well-known anchor and a DOI target at once. -/
def refWellKnownDoi : Elem :=
  Elem.mk "reference" [("anchor", "RFC9000"), ("target", "https://doi.org/10.1/xyz")]
    none none []

/-- A `<reference>` with an ordinary anchor and a DOI target. -/
def refDoiOnly : Elem :=
  Elem.mk "reference" [("anchor", "EX1"), ("target", "https://doi.org/10.1/xyz")]
    none none []

/-- A document whose normative reference block holds `refWellKnownDoi`. -/
def rfcDocWellKnownDoi : Elem :=
  Elem.mk "rfc" [] none none
    [Elem.mk "back" [] none none
      [Elem.mk "references" [] none none
        [Elem.mk "name" [("slugifiedName", "name-normative-references")] none none [],
         refWellKnownDoi]]]

/-- A document whose normative reference block holds `refDoiOnly`. -/
def rfcDocDoiOnly : Elem :=
  Elem.mk "rfc" [] none none
    [Elem.mk "back" [] none none
      [Elem.mk "references" [] none none
        [Elem.mk "name" [("slugifiedName", "name-normative-references")] none none [],
         refDoiOnly]]]

/-- A cross-reference with a section attribute and an unsupported
section format, followed by tail text. -/
def xrefUnsupportedFormat : Elem :=
  Elem.mk "xref" [("target", "RFC1234"), ("section", "3"), ("sectionFormat", "weird")]
    none (some " and more.") []

/-- A paragraph whose text is followed by `xrefUnsupportedFormat`. -/
def paraWithBadXref : Elem :=
  Elem.mk "t" [] (some "See") none [xrefUnsupportedFormat]

/-- The table of the three-line rendering property: one header cell
`A` with no alignment attribute and one body row with one cell `1`. -/
def tableExample : Elem :=
  Elem.mk "table" [] none none
    [Elem.mk "thead" [] none none
      [Elem.mk "tr" [] none none [Elem.mk "th" [] (some "A") none []]],
     Elem.mk "tbody" [] none none
      [Elem.mk "tr" [] none none [Elem.mk "td" [] (some "1") none []]]]

/-- A minimal document with front, abstract, middle and back. -/
def docWithBack : Elem :=
  Elem.mk "rfc" [] none none
    [Elem.mk "front" [] none none [Elem.mk "abstract" [] (some "Hi") none []],
     Elem.mk "middle" [] (some "Body") none [],
     Elem.mk "back" [] (some "App") none []]

/-- The same document without the back element. -/
def docNoBack : Elem :=
  Elem.mk "rfc" [] none none
    [Elem.mk "front" [] none none [Elem.mk "abstract" [] (some "Hi") none []],
     Elem.mk "middle" [] (some "Body") none []]

/-- A cross-reference with no target attribute. -/
def xrefNoTarget : Elem := Elem.mk "xref" [] none none []

/-- C1: a cross-reference element with target `RFC1234`, section `3`,
section format `of` and no inline text content renders exactly
`Section 3 of` followed by the double-braced target, in both copies of
the inline renderer (`extract_xref` of xmlrfc2md.py and of xml2md.py). -/
theorem c1_xref_section_of_roundtrip (e : Elem)
    (ht : e.get "target" = some "RFC1234") (hs : e.get "section" = some "3")
    (hf : e.get "sectionFormat" = some "of") (htext : e.text = none) :
    extract_xref e = some "Section 3 of \x7b\x7bRFC1234\x7d\x7d" ∧
    Xml2md.extract_xref e = some "Section 3 of \x7b\x7bRFC1234\x7d\x7d" := by
  constructor
  · simp [extract_xref, ht, hs, hf, htext]
  · simp [Xml2md.extract_xref, ht, hs, hf, htext]
    decide

/-- Witness for C1 at the concrete cross-reference element. -/
theorem c1_xref_section_of_roundtrip_witness :
    extract_xref xrefOfExample = some "Section 3 of \x7b\x7bRFC1234\x7d\x7d" ∧
    Xml2md.extract_xref xrefOfExample = some "Section 3 of \x7b\x7bRFC1234\x7d\x7d" :=
  c1_xref_section_of_roundtrip xrefOfExample (by decide) (by decide) (by decide)
    (by decide)

/-- C2: a section child whose heading's slugified name is one of the
reserved author/contributor boilerplate slugs contributes nothing at all
to the output of the recursive content extractor: the dispatch step
returns the accumulated output unchanged, whatever the section's
attributes, text and children are. -/
theorem c2_reserved_section_emits_nothing (fuel : Nat) (output : String) (s : Elem)
    (sl ll lt : Nat) (span : Bool) (nameEl : Elem) (nm : String)
    (htag : s.tag = "section")
    (hname : findChild s "name" = some nameEl)
    (hslug : nameEl.get "slugifiedName" = some nm)
    (hres : nm = "name-authors-addresses" ∨ nm = "name-authors-address" ∨
            nm = "name-contributors") :
    extract_child (fuel + 1) output s sl ll lt span = some output := by
  obtain ⟨tag, attrs, text, tail, children⟩ := s
  simp only [Elem.tag] at htag
  subst htag
  rcases hres with h | h | h <;> subst h <;>
    simp [extract_child, Elem.tag, hname, hslug]

/-- Witness for C2: the concrete contributors section with content is
skipped entirely. -/
theorem c2_reserved_section_emits_nothing_witness :
    extract_child (4 + 1) "pre" contributorsSection 0 0 0 false = some "pre" :=
  c2_reserved_section_emits_nothing 4 "pre" contributorsSection 0 0 0 false
    contributorsName "name-contributors" rfl rfl rfl (Or.inr (Or.inr rfl))

/-- C3 counterexample: a reference whose anchor is well-known and whose
target is a DOI URL maps to `null`, not to the DOI short form — the
anchor test precedes the target test — so the claim's "every entry whose
target is a DOI URL maps to the short DOI-form string" fails here. -/
theorem c3_doi_vs_wellknown_counterexample :
    convert_references rfcDocWellKnownDoi "normative" =
      some (some [("RFC9000", RefEntry.null)]) ∧
    ¬ convert_references rfcDocWellKnownDoi "normative" =
      some (some [("RFC9000", RefEntry.doi "DOI.10.1/xyz")]) :=
  ⟨rfl, by decide⟩

/-- C3 amended: a well-known anchor always maps to `null`; an entry
whose anchor is present and not well-known and whose target is a DOI URL
maps to the short DOI string; the two concrete instances of the claim
hold through `convert_references`. -/
theorem c3_reference_classification (refs : List (String × RefEntry)) (ref : Elem)
    (anchor target : String) (ha : ref.get "anchor" = some anchor) :
    (wellKnownAnchor anchor = true →
      refStep refs ref = some (refsInsert refs anchor RefEntry.null)) ∧
    (wellKnownAnchor anchor = false → ref.get "target" = some target →
      strStartsWith target "https://doi.org/" = true →
      refStep refs ref =
        some (refsInsert refs anchor
          (RefEntry.doi ("DOI." ++ strDropPrefix target "https://doi.org/")))) ∧
    convert_references rfcDocWellKnownDoi "normative" =
      some (some [("RFC9000", RefEntry.null)]) ∧
    convert_references rfcDocDoiOnly "normative" =
      some (some [("EX1", RefEntry.doi "DOI.10.1/xyz")]) := by
  refine ⟨?_, ?_, rfl, rfl⟩
  · intro hwk
    simp [refStep, ha, hwk]
  · intro hwk hT hdoi
    simp [refStep, ha, hwk, hT, hdoi]

/-- Witness for C3 at the concrete well-known reference. -/
theorem c3_reference_classification_witness :
    refStep [] refWellKnownDoi = some (refsInsert [] "RFC9000" RefEntry.null) :=
  (c3_reference_classification [] refWellKnownDoi "RFC9000" "x" (by decide)).1
    (by decide)

/-- C4 counterexample: a cross-reference with a section attribute and an
unsupported section format is not fatal — the renderer returns the
placeholder `badxref` and extraction of the surrounding paragraph
completes normally, with the placeholder and the following tail text in
the output. -/
theorem c4_unsupported_format_counterexample :
    extract_xref xrefUnsupportedFormat = some "badxref" ∧
    extract_sections 5 paraWithBadXref 0 0 0 false = some "See badxref and more." :=
  ⟨rfl, rfl⟩

/-- C4 amended: an xref with a section attribute whose section format is
present but not one of `of`, `comma`, `parens`, `bare` is a non-fatal
diagnostic: `extract_xref` returns the placeholder `badxref` (and the
earlier xml2md.py copy does the same for `RFC`-prefixed targets whose
format is neither `of` nor `comma`), and the conversion continues. -/
theorem c4_unsupported_format_nonfatal (e : Elem) (tgt s f : String)
    (ht : e.get "target" = some tgt) (hs : e.get "section" = some s)
    (hf : e.get "sectionFormat" = some f) (htext : e.text = none)
    (h1 : f ≠ "of") (h2 : f ≠ "comma") (h3 : f ≠ "parens") (h4 : f ≠ "bare") :
    extract_xref e = some "badxref" ∧
    (strStartsWith tgt "RFC" = true → Xml2md.extract_xref e = some "badxref") := by
  constructor
  · simp [extract_xref, ht, hs, hf, htext, h1, h2, h3, h4]
  · intro hrfc
    simp [Xml2md.extract_xref, ht, hs, hf, hrfc, h1, h2]

/-- Witness for C4 at the concrete unsupported-format element. -/
theorem c4_unsupported_format_nonfatal_witness :
    extract_xref xrefUnsupportedFormat = some "badxref" ∧
    (strStartsWith "RFC1234" "RFC" = true →
      Xml2md.extract_xref xrefUnsupportedFormat = some "badxref") :=
  c4_unsupported_format_nonfatal xrefUnsupportedFormat "RFC1234" "3" "weird"
    (by decide) (by decide) (by decide) (by decide) (by decide) (by decide)
    (by decide) (by decide)

/-- C7: the table with one default-aligned header cell `A` and one body
row `1` renders exactly as the three lines `|A`, `|- `, `|1` wrapped in
the newline conventions of the source. -/
theorem c7_table_three_lines :
    extract_table 10 tableExample = some "\n|A\n|- \n|1\n" := rfl

/-- C8: the claim describes the intended behaviour, but the code has a
bug: `parse_rfc` emits the back segment when back-matter is present, yet
for a document without back-matter the guard `back != ""` (an identity
comparison of `None` with a string) is still true and the run crashes
with an `AttributeError` instead of producing the front, abstract and
body segments. -/
theorem c8_back_divider_crash :
    parse_rfc 10 "P" docWithBack false =
      some "---\nP\n--- abstract\n\nHi\n\n\n--- middle\n\nBody\n--- back\n\nApp" ∧
    parse_rfc 10 "P" docNoBack false = none :=
  ⟨rfl, rfl⟩

/-- C10: an xref element with no target attribute renders as the literal
placeholder `badxref` in both copies of the renderer, and the recursive
extractor continues, inserting the placeholder into the output via the
gap-insertion rule. -/
theorem c10_missing_target_placeholder (e : Elem) (h : e.get "target" = none) :
    extract_xref e = some "badxref" ∧ Xml2md.extract_xref e = some "badxref" ∧
    (∀ (fuel : Nat) (output : String) (sl ll lt : Nat) (span : Bool),
      e.tag = "xref" →
      extract_child (fuel + 1) output e sl ll lt span =
        some (concat_with_space output "badxref")) := by
  refine ⟨?_, ?_, ?_⟩
  · simp [extract_xref, h]
  · simp [Xml2md.extract_xref, h]
  · intro fuel output sl ll lt span htag
    obtain ⟨tag, attrs, text, tail, children⟩ := e
    simp only [Elem.tag] at htag
    subst htag
    simp [extract_child, Elem.tag, extract_xref, h]

/-- Witness for C10 at the concrete target-less element. -/
theorem c10_missing_target_placeholder_witness :
    extract_child (3 + 1) "out" xrefNoTarget 0 0 0 false =
      some (concat_with_space "out" "badxref") :=
  (c10_missing_target_placeholder xrefNoTarget (by decide)).2.2 3 "out" 0 0 0 false
    rfl

/-- Lookup after insert-or-overwrite in the throttle counter mapping. -/
theorem msgLookup_natDictInsert (m : List (String × Nat)) (k k' : String) (v : Nat) :
    msgLookup (natDictInsert m k v) k' = if k = k' then some v else msgLookup m k' := by
  induction m with
  | nil =>
    by_cases h : k = k' <;> simp [natDictInsert, msgLookup, h]
  | cons p rest ih =>
    obtain ⟨pk, pv⟩ := p
    by_cases hp : pk = k
    · subst hp
      by_cases h : pk = k' <;> simp [natDictInsert, msgLookup, h]
    · have hd : natDictInsert ((pk, pv) :: rest) k v =
          (pk, pv) :: natDictInsert rest k v := by
        simp [natDictInsert, hp]
      rw [hd]
      by_cases h2 : pk = k'
      · have hk : ¬ k = k' := fun hh => hp (h2.trans hh.symm)
        simp [msgLookup, h2, hk]
      · simp [msgLookup, h2, ih]

/-- The counter state after one `throttle` call: the called class is
incremented (from zero when unseen), others are untouched. -/
theorem throttle_lookup (m : List (String × Nat)) (ty msg k : String) :
    msgLookup (throttle m ty msg).1 k =
      if ty = k then some ((msgLookup m k).getD 0 + 1) else msgLookup m k := by
  by_cases hty : ty = k
  · subst hty
    rcases h : msgLookup m ty with _ | c <;>
      simp [throttle, h, msgLookup_natDictInsert]
  · rcases h : msgLookup m ty with _ | c <;>
      simp [throttle, h, msgLookup_natDictInsert, hty]

/-- One `throttle` call prints exactly when the class counter is still
zero (in particular on the first occurrence of the class). -/
theorem throttle_printed (m : List (String × Nat)) (ty msg : String) :
    (throttle m ty msg).2 = decide ((msgLookup m ty).getD 0 = 0) := by
  rcases h : msgLookup m ty with _ | c <;>
    simp [throttle, h, msgLookup_natDictInsert]

/-- The class counter after a run of `throttle` calls counts exactly the
occurrences of the class (on top of the starting state). -/
theorem throttleRun_lookup (events : List (String × String)) (m : List (String × Nat))
    (k : String) :
    msgLookup (throttleRun m events).1 k =
      if msgLookup m k = none ∧ events.countP (fun p => decide (p.1 = k)) = 0 then none
      else some ((msgLookup m k).getD 0 +
                 events.countP (fun p => decide (p.1 = k))) := by
  induction events generalizing m with
  | nil =>
    rcases h : msgLookup m k with _ | c <;> simp [throttleRun, h]
  | cons ev rest ih =>
    obtain ⟨ty, msg⟩ := ev
    simp only [throttleRun]
    rw [ih, throttle_lookup]
    by_cases hty : ty = k
    · subst hty
      simp [List.countP_cons]
      omega
    · rw [if_neg hty]
      have hc : List.countP (fun p => decide (p.1 = k)) ((ty, msg) :: rest) =
          List.countP (fun p => decide (p.1 = k)) rest := by
        simp [List.countP_cons, hty]
      rw [hc]

/-- Along a run of `throttle` calls, a given class is printed exactly
once when it occurs at all and its counter started at zero, and never
otherwise. -/
theorem throttleRun_logCount (events : List (String × String)) (m : List (String × Nat))
    (k : String) :
    ((throttleRun m events).2.countP (fun p => p.2 && decide (p.1 = k))) =
      if (msgLookup m k).getD 0 = 0 ∧
          0 < events.countP (fun p => decide (p.1 = k)) then 1 else 0 := by
  induction events generalizing m with
  | nil => simp [throttleRun]
  | cons ev rest ih =>
    obtain ⟨ty, msg⟩ := ev
    simp only [throttleRun, List.countP_cons]
    rw [ih, throttle_lookup, throttle_printed]
    by_cases hty : ty = k
    · subst hty
      by_cases hz : (msgLookup m ty).getD 0 = 0 <;> simp [hz, List.countP_cons]
    · rw [if_neg hty]
      have ht : (if decide (ty = k) = true then 1 else 0) = 0 := by simp [hty]
      rw [ht, Nat.add_zero]
      have hb : (decide ((msgLookup m ty).getD 0 = 0) && decide (ty = k)) = false := by
        simp [hty]
      rw [hb]
      simp

/-- C9: within a run starting from the empty counter state, each warning
class is printed exactly on its first occurrence (so at most once), the
per-class counter after the run equals the total number of occurrences
of the class (and, the run being arbitrary, the same holds after every
prefix, i.e. after each call); in particular the source-block
language-tag warning `warn-lang` fires at most once however many typed
source blocks the document contains. -/
theorem c9_throttle_once_per_class (events : List (String × String)) (k : String) :
    ((throttleRun [] events).2.countP (fun p => p.2 && decide (p.1 = k))) =
      min (events.countP (fun p => decide (p.1 = k))) 1 ∧
    msgLookup (throttleRun [] events).1 k =
      (if events.countP (fun p => decide (p.1 = k)) = 0 then none
       else some (events.countP (fun p => decide (p.1 = k)))) ∧
    ∀ es : List Elem,
      ((throttleRun [] (sourcecodeThrottleEvents es)).2.countP
        (fun p => p.2 && decide (p.1 = "warn-lang"))) ≤ 1 := by
  have h0 : msgLookup ([] : List (String × Nat)) k = none := rfl
  have h1 : msgLookup ([] : List (String × Nat)) "warn-lang" = none := rfl
  refine ⟨?_, ?_, ?_⟩
  · rw [throttleRun_logCount, h0, Option.getD_none]
    by_cases hc : events.countP (fun p => decide (p.1 = k)) = 0
    · rw [if_neg (fun h => by omega)]
      omega
    · rw [if_pos ⟨rfl, by omega⟩]
      omega
  · rw [throttleRun_lookup, h0]
    by_cases hc : events.countP (fun p => decide (p.1 = k)) = 0
    · rw [if_pos ⟨rfl, hc⟩, if_pos hc]
    · rw [if_neg (fun h => hc h.2), if_neg hc, Option.getD_none, Nat.zero_add]
  · intro es
    rw [throttleRun_logCount, h1, Option.getD_none]
    split <;> omega

/-- `dropWhile` never lengthens a list. -/
theorem length_dropWhile_le' (p : Char → Bool) (l : List Char) :
    (l.dropWhile p).length ≤ l.length := by
  induction l with
  | nil => simp
  | cons c cs ih =>
    by_cases hc : p c
    · rw [List.dropWhile_cons_of_pos hc]
      exact Nat.le_trans ih (Nat.le_succ _)
    · rw [List.dropWhile_cons_of_neg (by simp [hc])]

/-- A list unchanged by `dropWhile p` has no leading `p`-element. -/
theorem takeWhile_nil_of_dropWhile_eq (p : Char → Bool) (l : List Char)
    (h : l.dropWhile p = l) : l.takeWhile p = [] := by
  cases l with
  | nil => rfl
  | cons c cs =>
    by_cases hc : p c
    · exfalso
      have hlen : (List.dropWhile p (c :: cs)).length ≤ cs.length := by
        rw [List.dropWhile_cons_of_pos hc]
        exact length_dropWhile_le' p cs
      rw [h] at hlen
      simp at hlen
    · rw [List.takeWhile_cons_of_neg (by simp [hc])]

/-- The result of `dropWhile p` starts with no `p`-element. -/
theorem takeWhile_dropWhile_nil (p : Char → Bool) (l : List Char) :
    (l.dropWhile p).takeWhile p = [] := by
  induction l with
  | nil => rfl
  | cons c cs ih =>
    by_cases hc : p c
    · rw [List.dropWhile_cons_of_pos hc]; exact ih
    · rw [List.dropWhile_cons_of_neg (by simp [hc]),
          List.takeWhile_cons_of_neg (by simp [hc])]

/-- `dropWhile` is idempotent. -/
theorem dropWhile_dropWhile (p : Char → Bool) (l : List Char) :
    (l.dropWhile p).dropWhile p = l.dropWhile p := by
  induction l with
  | nil => rfl
  | cons c cs ih =>
    by_cases hc : p c
    · rw [List.dropWhile_cons_of_pos hc]; exact ih
    · rw [List.dropWhile_cons_of_neg (by simp [hc]),
          List.dropWhile_cons_of_neg (by simp [hc])]

/-- Filtering by the complement of `p` ignores a leading `dropWhile p`. -/
theorem filter_not_dropWhile (p : Char → Bool) (l : List Char) :
    (l.dropWhile p).filter (fun c => !p c) = l.filter (fun c => !p c) := by
  induction l with
  | nil => rfl
  | cons c cs ih =>
    by_cases hc : p c
    · rw [List.dropWhile_cons_of_pos hc, ih, List.filter_cons]
      simp [hc]
    · rw [List.dropWhile_cons_of_neg (by simp [hc])]

/-- The three guarantees of the per-line collapse step: at most one
leading whitespace character, the part from the first non-whitespace
character on (hence trailing whitespace and internal runs) is unchanged,
and the non-whitespace characters are unchanged. -/
theorem collapseLine_spec (ln : List Char) :
    ((collapseLine ln).takeWhile pyIsSpace).length ≤ 1 ∧
    pyLstrip (collapseLine ln) = pyLstrip ln ∧
    (collapseLine ln).filter (fun c => !pyIsSpace c) =
      ln.filter (fun c => !pyIsSpace c) := by
  have hsp : pyIsSpace ' ' = true := by decide
  simp only [collapseLine]
  by_cases h : pyLstrip ln ≠ ln
  · rw [if_pos h]
    refine ⟨?_, ?_, ?_⟩
    · rw [List.takeWhile_cons_of_pos hsp]
      unfold pyLstrip
      rw [takeWhile_dropWhile_nil]
      simp
    · show pyLstrip (' ' :: pyLstrip ln) = pyLstrip ln
      unfold pyLstrip
      rw [List.dropWhile_cons_of_pos hsp]
      exact dropWhile_dropWhile pyIsSpace ln
    · rw [List.filter_cons]
      simp only [hsp, Bool.not_true, Bool.false_eq_true, if_false]
      exact filter_not_dropWhile pyIsSpace ln
  · rw [if_neg h]
    push_neg at h
    refine ⟨?_, ?_, ?_⟩
    · rw [h, takeWhile_nil_of_dropWhile_eq pyIsSpace ln h]
      simp
    · exact dropWhile_dropWhile pyIsSpace ln
    · exact filter_not_dropWhile pyIsSpace ln

/-- Every line-boundary character is whitespace. -/
theorem pyIsSpace_of_isLineBreak (c : Char) (h : isLineBreak c = true) :
    pyIsSpace c = true := by
  unfold isLineBreak at h
  unfold pyIsSpace
  simp only [decide_eq_true_eq] at h ⊢
  tauto

/-- Filtering out whitespace commutes with joining on a whitespace
separator. -/
theorem filter_flatten_intersperse (sep : Char) (hsep : pyIsSpace sep = true)
    (ls : List (List Char)) :
    ((ls.intersperse [sep]).flatten).filter (fun c => !pyIsSpace c) =
      (ls.map (fun l => l.filter (fun c => !pyIsSpace c))).flatten := by
  induction ls with
  | nil => rfl
  | cons a tl ih =>
    cases tl with
    | nil => simp
    | cons b tl2 =>
      rw [List.intersperse_cons_cons [sep] a b tl2]
      simp only [List.flatten_cons, List.filter_append, List.map_cons] at ih ⊢
      rw [← ih]
      simp [List.filter_cons, hsep]

/-- `pySplitlines` returns no lines only for the empty text. -/
theorem pySplitlines_eq_nil (l : List Char) (h : pySplitlines l = []) : l = [] := by
  induction l using pySplitlines.induct with
  | case1 => rfl
  | case2 cs ih => simp [pySplitlines] at h
  | case3 c cs hcr hlb ih =>
    simp only [pySplitlines] at h
    simp [hlb] at h
  | case4 c cs hcr hlb hnil ih =>
    simp only [pySplitlines] at h
    simp [hlb, hnil] at h
  | case5 c cs hcr hlb l2 ls hcons ih =>
    simp only [pySplitlines] at h
    simp [hlb, hcons] at h

/-- Splitting into lines preserves the non-whitespace characters (line
boundaries are whitespace). -/
theorem filter_splitlines (l : List Char) :
    ((pySplitlines l).map (fun x => x.filter (fun c => !pyIsSpace c))).flatten =
      l.filter (fun c => !pyIsSpace c) := by
  induction l using pySplitlines.induct with
  | case1 => rfl
  | case2 cs ih =>
    simp only [pySplitlines, List.map_cons, List.flatten_cons]
    rw [ih]
    have h1 : pyIsSpace '\r' = true := by decide
    have h2 : pyIsSpace '\n' = true := by decide
    simp [List.filter_cons, h1, h2]
  | case3 c cs hcr hlb ih =>
    simp only [pySplitlines]
    simp only [hlb, if_true, List.map_cons, List.flatten_cons]
    rw [ih]
    simp [List.filter_cons, pyIsSpace_of_isLineBreak c hlb]
  | case4 c cs hcr hlb hnil ih =>
    have hcs : cs = [] := pySplitlines_eq_nil cs hnil
    subst hcs
    simp only [pySplitlines]
    simp [hlb]
  | case5 c cs hcr hlb l2 ls hcons ih =>
    simp only [pySplitlines]
    simp only [hlb, if_false, Bool.false_eq_true, hcons]
    rw [hcons] at ih
    simp only [List.map_cons, List.flatten_cons] at ih ⊢
    rw [List.filter_cons, List.filter_cons]
    by_cases hc : (!pyIsSpace c) = true
    · rw [if_pos hc, if_pos hc, List.cons_append, ih]
    · rw [if_neg hc, if_neg hc, ih]

/-- C5 counterexample: in span mode the joining step can put two
whitespace characters at the start of an output line — the text
consisting of an empty line followed by an indented line collapses to a
single line with two leading spaces, violating the
at-most-one-leading-space claim. -/
theorem c5_span_two_leading_spaces_counterexample :
    collapse_spaces "\n  x" true = "  x" ∧
    (("  x".data.takeWhile pyIsSpace).length) = 2 :=
  ⟨rfl, by decide⟩

/-- C5 amended: for every input and both span flags the sequence of
non-whitespace characters is unchanged; each collapsed line (the lines
that are then joined to form the output) carries at most one leading
whitespace character and is untouched from its first non-whitespace
character on — so trailing whitespace and internal runs within a line
are preserved.  In span mode the space-join itself may still place two
whitespace characters next to an empty collapsed line (see the
counterexample). -/
theorem c5_collapse_guarantees :
    (∀ (t : String) (span : Bool),
      (collapse_spaces t span).data.filter (fun c => !pyIsSpace c) =
        t.data.filter (fun c => !pyIsSpace c)) ∧
    (∀ ln : List Char,
      ((collapseLine ln).takeWhile pyIsSpace).length ≤ 1 ∧
      pyLstrip (collapseLine ln) = pyLstrip ln ∧
      (collapseLine ln).filter (fun c => !pyIsSpace c) =
        ln.filter (fun c => !pyIsSpace c)) := by
  constructor
  · intro t span
    show (collapseSpacesL t.data span).filter _ = _
    unfold collapseSpacesL
    have hmap : ((pySplitlines t.data).map collapseLine).map
        (fun l => l.filter (fun c => !pyIsSpace c)) =
        (pySplitlines t.data).map (fun l => l.filter (fun c => !pyIsSpace c)) := by
      rw [List.map_map]
      exact List.map_congr_left (fun l _ => (collapseLine_spec l).2.2)
    cases span
    · simp only [Bool.not_false, if_true]
      rw [filter_flatten_intersperse '\n' (by decide), hmap, filter_splitlines]
    · simp only [Bool.not_true, Bool.false_eq_true, if_false]
      rw [filter_flatten_intersperse ' ' (by decide), hmap, filter_splitlines]
  · exact collapseLine_spec

/-- Tab expansion is the identity on tab-free text. -/
theorem expandTabs_no_tab (col : Nat) (l : List Char) (h : '\t' ∉ l) :
    expandTabsAux col l = l := by
  induction l generalizing col with
  | nil => rfl
  | cons c cs ih =>
    have hc : ¬ c = '\t' := fun hcc => h (hcc ▸ List.mem_cons_self c cs)
    have hcs : '\t' ∉ cs := fun hm => h (List.mem_cons_of_mem c hm)
    unfold expandTabsAux
    rw [if_neg hc]
    by_cases hnl : c = '\n' ∨ c = '\r'
    · rw [if_pos hnl, ih 0 hcs]
    · rw [if_neg hnl, ih (col + 1) hcs]

/-- The chunks of `splitChunks` concatenate back to the input. -/
theorem splitChunks_flatten (l : List Char) : (splitChunks l).flatten = l := by
  induction l using splitChunks.induct with
  | case1 => rfl
  | case2 c cs hnil ih =>
    rw [hnil] at ih
    simp only [List.flatten_nil] at ih
    have hred : splitChunks (c :: cs) = [[c]] := by
      simp only [splitChunks, hnil]
    rw [hred, ← ih]
    rfl
  | case3 c cs rest hcons ih =>
    have hred : splitChunks (c :: cs) = [c] :: [] :: rest := by
      simp only [splitChunks, hcons]
    rw [hcons] at ih
    rw [hred]
    simp only [List.flatten_cons, List.flatten_nil] at ih ⊢
    simp only [List.nil_append] at ih
    rw [List.singleton_append, List.nil_append, ih]
  | case4 c cs d ds rest hcons heq ih =>
    have hred : splitChunks (c :: cs) = (c :: d :: ds) :: rest := by
      simp only [splitChunks, hcons]
      rw [if_pos heq]
    rw [hcons] at ih
    rw [hred]
    simp only [List.flatten_cons] at ih ⊢
    rw [List.cons_append, ih]
  | case5 c cs d ds rest hcons hne ih =>
    have hred : splitChunks (c :: cs) = [c] :: (d :: ds) :: rest := by
      simp only [splitChunks, hcons]
      rw [if_neg hne]
    rw [hcons] at ih
    rw [hred]
    simp only [List.flatten_cons] at ih ⊢
    rw [List.singleton_append, ih]

/-- An empty chunk list comes only from the empty input. -/
theorem splitChunks_eq_nil (cs : List Char) (h : splitChunks cs = []) : cs = [] := by
  have hf := splitChunks_flatten cs
  rw [h] at hf
  simpa using hf.symm

/-- The flattened length of a chunk list is its total character count. -/
theorem totalChunkLen_flatten (chs : List (List Char)) :
    chs.flatten.length = totalChunkLen chs := by
  induction chs with
  | nil => rfl
  | cons a tl ih =>
    simp only [totalChunkLen, List.flatten_cons, List.length_append, List.map_cons,
      List.sum_cons] at ih ⊢
    omega

/-- When everything fits within the width, the greedy loop puts all
chunks on the current line. -/
theorem greedyFill_all_fit (width : Nat) (chunks : List (List Char)) (curLen : Nat)
    (h : curLen + totalChunkLen chunks ≤ width) :
    greedyFill width curLen chunks = (chunks, curLen + totalChunkLen chunks, []) := by
  induction chunks generalizing curLen with
  | nil => simp [greedyFill, totalChunkLen]
  | cons c rest ih =>
    have htot : totalChunkLen (c :: rest) = c.length + totalChunkLen rest := by
      simp [totalChunkLen]
    have hc : curLen + c.length ≤ width := by omega
    unfold greedyFill
    rw [if_pos hc, ih (curLen + c.length) (by omega)]
    simp only [Prod.mk.injEq, true_and, and_true]
    omega

/-- The wrap loop on an empty chunk list emits nothing. -/
theorem wrapChunksAux_nil (width fuel : Nat) (hasLines : Bool) :
    wrapChunksAux width fuel hasLines [] = [] := by
  cases fuel <;> rfl

/-- When the last chunk of a line is not pure whitespace, the trailing
drop is the identity. -/
theorem dropLastIfWs_id (chs : List (List Char))
    (h : ∀ ch, chs.getLast? = some ch → ch.all pyIsSpace = false) :
    dropLastIfWs chs = chs := by
  unfold dropLastIfWs
  cases hl : chs.getLast? with
  | none => rfl
  | some last => simp [h last hl]

/-- When the input's last character is not whitespace, the last chunk of
`splitChunks` is not pure whitespace. -/
theorem splitChunks_last_not_ws (l : List Char) :
    (∀ c, l.getLast? = some c → pyIsSpace c = false) →
    ∀ ch, (splitChunks l).getLast? = some ch → ch.all pyIsSpace = false := by
  induction l using splitChunks.induct with
  | case1 =>
    intro hl ch h
    simp [splitChunks] at h
  | case2 c cs hnil ih =>
    intro hl ch h
    have hcs : cs = [] := splitChunks_eq_nil cs hnil
    subst hcs
    have hred : splitChunks [c] = [[c]] := rfl
    rw [hred] at h
    simp at h
    subst h
    simp [List.all_cons, hl c rfl]
  | case3 c cs rest hcons ih =>
    intro hl ch h
    have hcs : cs ≠ [] := by
      intro hh
      subst hh
      simp [show splitChunks ([] : List Char) = [] from rfl] at hcons
    have hlcs : ∀ x, cs.getLast? = some x → pyIsSpace x = false := by
      intro x hx
      apply hl x
      cases cs with
      | nil => exact absurd rfl hcs
      | cons b bs => rw [List.getLast?_cons_cons]; exact hx
    have hred : splitChunks (c :: cs) = [c] :: [] :: rest := by
      simp only [splitChunks, hcons]
    rw [hred, List.getLast?_cons_cons] at h
    exact ih hlcs ch (by rw [hcons]; exact h)
  | case4 c cs d ds rest hcons heq ih =>
    intro hl ch h
    have hcs : cs ≠ [] := by
      intro hh
      subst hh
      simp [show splitChunks ([] : List Char) = [] from rfl] at hcons
    have hlcs : ∀ x, cs.getLast? = some x → pyIsSpace x = false := by
      intro x hx
      apply hl x
      cases cs with
      | nil => exact absurd rfl hcs
      | cons b bs => rw [List.getLast?_cons_cons]; exact hx
    have ih2 := ih hlcs
    have hred : splitChunks (c :: cs) = (c :: d :: ds) :: rest := by
      simp only [splitChunks, hcons]
      rw [if_pos heq]
    rw [hred] at h
    cases rest with
    | nil =>
      simp at h
      subst h
      have hdd := ih2 (d :: ds) (by rw [hcons]; rfl)
      simp only [List.all_cons] at hdd ⊢
      rw [hdd]
      simp
    | cons r2 rest2 =>
      rw [List.getLast?_cons_cons] at h
      exact ih2 ch (by rw [hcons, List.getLast?_cons_cons]; exact h)
  | case5 c cs d ds rest hcons hne ih =>
    intro hl ch h
    have hcs : cs ≠ [] := by
      intro hh
      subst hh
      simp [show splitChunks ([] : List Char) = [] from rfl] at hcons
    have hlcs : ∀ x, cs.getLast? = some x → pyIsSpace x = false := by
      intro x hx
      apply hl x
      cases cs with
      | nil => exact absurd rfl hcs
      | cons b bs => rw [List.getLast?_cons_cons]; exact hx
    have hred : splitChunks (c :: cs) = [c] :: (d :: ds) :: rest := by
      simp only [splitChunks, hcons]
      rw [if_neg hne]
    rw [hred, List.getLast?_cons_cons] at h
    exact ih hlcs ch (by rw [hcons]; exact h)

/-- A good line — at most the width, no tab, not ending in whitespace —
is returned unchanged by the module wrapper's `fill`. -/
theorem pyFill_good (l : List Char) (hlen : l.length ≤ 120) (htab : '\t' ∉ l)
    (hlast : ∀ c, l.getLast? = some c → pyIsSpace c = false) :
    pyFill l = l := by
  unfold pyFill pyWrap
  rw [expandTabs_no_tab 0 l htab]
  cases hsc : splitChunks l with
  | nil =>
    have hl : l = [] := splitChunks_eq_nil l hsc
    subst hl
    rfl
  | cons c rest =>
    have htot : totalChunkLen (c :: rest) = l.length := by
      rw [← totalChunkLen_flatten, ← hsc, splitChunks_flatten]
    have hfit : 0 + totalChunkLen (c :: rest) ≤ 120 := by omega
    have hlast2 : ∀ ch, ((c :: rest) : List (List Char)).getLast? = some ch →
        ch.all pyIsSpace = false := by
      intro ch hch
      exact splitChunks_last_not_ws l hlast ch (by rw [hsc]; exact hch)
    have hne : ((c :: rest) : List (List Char)) ≠ [] := by simp
    simp only [wrapChunksAux]
    rw [show (false && c.all pyIsSpace) = false from by simp]
    simp only [if_false, Bool.false_eq_true]
    rw [greedyFill_all_fit 120 (c :: rest) 0 hfit]
    simp only
    rw [dropLastIfWs_id (c :: rest) hlast2]
    simp only [List.isEmpty_cons, wrapChunksAux_nil]
    rw [show ((c :: rest) : List (List Char)).flatten = l from by
      rw [← hsc, splitChunks_flatten]]
    simp [List.intersperse]

/-- Lines produced by `pySplitlines` contain no line-boundary
characters. -/
theorem pySplitlines_no_linebreak (l : List Char) :
    ∀ x ∈ pySplitlines l, ∀ c ∈ x, isLineBreak c = false := by
  induction l using pySplitlines.induct with
  | case1 => intro x hx; simp [pySplitlines] at hx
  | case2 cs ih =>
    intro x hx
    simp only [pySplitlines, List.mem_cons] at hx
    rcases hx with h | h
    · subst h; intro c hc; simp at hc
    · exact ih x h
  | case3 c cs hcr hlb ih =>
    intro x hx
    simp only [pySplitlines, hlb, if_true] at hx
    rcases List.mem_cons.mp hx with h | h
    · subst h; intro c2 hc2; simp at hc2
    · exact ih x h
  | case4 c cs hcr hlb hnil ih =>
    intro x hx
    simp only [pySplitlines, hlb, hnil] at hx
    simp at hx
    subst hx
    intro c2 hc2
    simp at hc2
    subst hc2
    exact Bool.not_eq_true _ ▸ (by simpa using hlb)
  | case5 c cs hcr hlb l2 ls hcons ih =>
    intro x hx
    simp only [pySplitlines, hlb, hcons] at hx
    simp only [Bool.false_eq_true, if_false, List.mem_cons] at hx
    rcases hx with h | h
    · subst h
      intro c2 hc2
      rcases List.mem_cons.mp hc2 with h2 | h2
      · subst h2; simpa using hlb
      · exact ih l2 (by rw [hcons]; exact List.mem_cons_self l2 ls) c2 h2
    · exact ih x (by rw [hcons]; exact List.mem_cons_of_mem l2 h)

/-- A nonempty boundary-free text is a single line. -/
theorem pySplitlines_single (l : List Char) (hne : l ≠ [])
    (hnb : ∀ c ∈ l, isLineBreak c = false) : pySplitlines l = [l] := by
  induction l with
  | nil => exact absurd rfl hne
  | cons c cs ih =>
    have hc : isLineBreak c = false := hnb c (List.mem_cons_self c cs)
    have hcr : ∀ cs' : List Char, c = '\r' → cs = '\n' :: cs' → False := by
      intro cs' hcc _
      subst hcc
      simp [isLineBreak] at hc
    have hred : pySplitlines (c :: cs) =
        if isLineBreak c then [] :: pySplitlines cs
        else match pySplitlines cs with
          | [] => [[c]]
          | l :: ls => (c :: l) :: ls := by
      simp only [pySplitlines]
    rw [hred, hc]
    simp only [Bool.false_eq_true, if_false]
    cases hcs : cs with
    | nil => rfl
    | cons b bs =>
      rw [← hcs, ih (by simp [hcs]) (fun x hx => hnb x (List.mem_cons_of_mem c hx))]

/-- Splitting a boundary-free line followed by a newline and more text
peels off exactly that line. -/
theorem pySplitlines_append_nl (l rest : List Char)
    (hnb : ∀ c ∈ l, isLineBreak c = false) :
    pySplitlines (l ++ '\n' :: rest) = l :: pySplitlines rest := by
  induction l with
  | nil =>
    show pySplitlines ('\n' :: rest) = [] :: pySplitlines rest
    have hred : pySplitlines ('\n' :: rest) =
        if isLineBreak '\n' then [] :: pySplitlines rest
        else match pySplitlines rest with
          | [] => [['\n']]
          | l :: ls => ('\n' :: l) :: ls := by
      simp only [pySplitlines]
    rw [hred]
    simp [isLineBreak]
  | cons c cs ih =>
    have hc : isLineBreak c = false := hnb c (List.mem_cons_self c cs)
    have hcr : ∀ cs' : List Char, c = '\r' →
        cs ++ '\n' :: rest = '\n' :: cs' → False := by
      intro cs' hcc _
      subst hcc
      simp [isLineBreak] at hc
    have hred : pySplitlines (c :: (cs ++ '\n' :: rest)) =
        if isLineBreak c then [] :: pySplitlines (cs ++ '\n' :: rest)
        else match pySplitlines (cs ++ '\n' :: rest) with
          | [] => [[c]]
          | l :: ls => (c :: l) :: ls := by
      simp only [pySplitlines]
    rw [List.cons_append, hred, hc]
    simp only [Bool.false_eq_true, if_false]
    rw [ih (fun x hx => hnb x (List.mem_cons_of_mem c hx))]

/-- Joining boundary-free lines (the last one nonempty) with newlines
and re-splitting recovers exactly the lines. -/
theorem pySplitlines_intersperse (ls : List (List Char))
    (hnb : ∀ x ∈ ls, ∀ c ∈ x, isLineBreak c = false)
    (hlast : ls.getLast? ≠ some ([] : List Char)) :
    pySplitlines ((ls.intersperse ['\n']).flatten) = ls := by
  induction ls with
  | nil => rfl
  | cons a tl ih =>
    cases tl with
    | nil =>
      have hane : a ≠ [] := by
        intro hh
        subst hh
        simp at hlast
      show pySplitlines ([a].flatten) = [a]
      simp only [List.flatten_cons, List.flatten_nil, List.append_nil]
      exact pySplitlines_single a hane (hnb a (List.mem_cons_self a [a].tail))
    | cons b tl2 =>
      rw [List.intersperse_cons_cons ['\n'] a b tl2]
      simp only [List.flatten_cons]
      rw [List.singleton_append]
      rw [pySplitlines_append_nl a _ (hnb a (List.mem_cons_self a (b :: tl2)))]
      rw [ih (fun x hx => hnb x (List.mem_cons_of_mem a hx))
             (by rw [List.getLast?_cons_cons] at hlast; exact hlast)]

/-- C6 counterexample: `fill_text` is not idempotent.  For the text
`"a\n\n"` the first application produces `"a\n"` (the trailing empty
line is consumed by the split/join round trip) and the second produces
`"a"`. -/
theorem c6_fill_text_not_idempotent :
    fill_text (fill_text "a\n\n") ≠ fill_text "a\n\n" := by decide

/-- C6 amended: `fill_text` is idempotent on texts whose every line fits
in the wrapper's width (120), contains no tab, and does not end in
whitespace, and whose line list does not end with an empty line; on such
texts one application is already the identity up to newline
normalization, so a second application changes nothing.  In general
idempotence fails (see the counterexample: a trailing empty line, or a
line-trailing whitespace run at the width boundary, is dropped only by
the second pass). -/
theorem c6_fill_text_conditional_idempotence (t : String)
    (hgood : ∀ l ∈ pySplitlines t.data, l.length ≤ 120 ∧ '\t' ∉ l ∧
      l.getLast?.all (fun c => !pyIsSpace c) = true)
    (hlast : (pySplitlines t.data).getLast? ≠ some ([] : List Char)) :
    fill_text (fill_text t) = fill_text t := by
  have hfill : ∀ l ∈ pySplitlines t.data, pyFill l = id l := by
    intro l hl
    obtain ⟨h1, h2, h3⟩ := hgood l hl
    show pyFill l = l
    apply pyFill_good l h1 h2
    intro c hc
    rw [hc] at h3
    simpa using h3
  have hmap : (pySplitlines t.data).map pyFill = pySplitlines t.data := by
    rw [List.map_congr_left hfill, List.map_id]
  have hnb := pySplitlines_no_linebreak t.data
  have hdata : (fill_text t).data =
      ((pySplitlines t.data).intersperse ['\n']).flatten := by
    show ((((pySplitlines t.data).map pyFill).intersperse ['\n']).flatten) = _
    rw [hmap]
  have hsplit : pySplitlines (fill_text t).data = pySplitlines t.data := by
    rw [hdata]
    exact pySplitlines_intersperse (pySplitlines t.data) hnb hlast
  show String.mk
      ((((pySplitlines (fill_text t).data).map pyFill).intersperse ['\n']).flatten) =
    fill_text t
  rw [hsplit, hmap]
  have hfin : String.mk (((pySplitlines t.data).intersperse ['\n']).flatten) =
      String.mk (fill_text t).data := by rw [hdata]
  rw [hfin]

/-- Witness for the amended C6 at a concrete short text. -/
theorem c6_fill_text_conditional_idempotence_witness :
    fill_text (fill_text "hello markdown") = fill_text "hello markdown" :=
  c6_fill_text_conditional_idempotence "hello markdown" (by decide) (by decide)
